import Mathlib

/-!
Verification development for the `drupal-canvas-react` component-tree
renderer.  The definitions below are a shallow embedding of the TypeScript
sources:

* `src/utils.ts`    — `isValidComponent`, `resolveComponent`
* `src/server.ts`   — `componentIdToKey`, `getChildrenBySlot`,
                      `renderComponent`, `renderCanvasComponents`
* `src/runtime.ts`  — `createRenderFunction` (the returned `render`)

JavaScript host behaviour that the code relies on is modelled explicitly:
JS truthiness (`jsOr`, `truthy`), `String.prototype.split` (`splitChar`),
object literal construction with spreads (`objSet`, `objSpread`), and the
insertion-ordered `Map` of `getChildrenBySlot` (`pushSlot`).  Host
functions that are not part of the repository (`JSON.parse`, the HTML
parser of `html-react-parser`, module loaders) are parameters of the
model.  Asynchronous code is collapsed to its resolved values: the order
of every fan-out is fixed before awaiting in the source
(`Promise.all(slotChildren.map (...))`), so the deterministic
sequentialisation is faithful to the ordering contract.
-/

namespace Canvas

/-- A JavaScript runtime value, as far as the renderer inspects values:
truthiness, `typeof value === 'function'`, and objects carrying the React
marker field `$$typeof` (forwardRef / memo components).  Opaque payloads
are distinguished by a numeric id. -/
inductive JSVal where
  | undef : JSVal
  | nullv : JSVal
  | boolv (b : Bool) : JSVal
  | numv (n : Int) : JSVal
  | strv (s : String) : JSVal
  | func (id : Nat) : JSVal
  | obj (hasTypeofMarker : Bool) (id : Nat) : JSVal
deriving DecidableEq, Repr

/-- JS truthiness of a value (`!value` is its negation). -/
def truthy : JSVal → Bool
  | JSVal.undef => false
  | JSVal.nullv => false
  | JSVal.boolv b => b
  | JSVal.numv n => n != 0
  | JSVal.strv s => s != ""
  | JSVal.func _ => true
  | JSVal.obj _ _ => true

/-- `a || b` on JS values. -/
def jsOr (a b : JSVal) : JSVal := if truthy a then a else b

/-- `utils.ts` `isValidComponent`: a function, or a (truthy) object with a
`$$typeof` field. -/
def isValidComponent : JSVal → Bool
  | JSVal.func _ => true
  | JSVal.obj marker _ => marker
  | _ => false

/-- A loaded ES module: its exports in enumeration order.  The `default`
export is just the property named `"default"`. -/
structure Module where
  exports : List (String × JSVal)
deriving DecidableEq, Repr

/-- JS property access `module[k]`: `undefined` when absent. -/
def moduleGet (m : Module) (k : String) : JSVal :=
  (m.exports.lookup k).getD JSVal.undef

/-- `Object.values(module)` in enumeration order. -/
def moduleValues (m : Module) : List JSVal :=
  m.exports.map Prod.snd

/-- `Array.prototype.find`: first match, or `undefined`. -/
def jsFind (p : JSVal → Bool) (xs : List JSVal) : JSVal :=
  (xs.find? p).getD JSVal.undef

/-- One JSON value (result of `JSON.parse` on `inputs`, or of
`transformProps`). -/
inductive Json where
  | nullj : Json
  | boolj (b : Bool) : Json
  | numj (n : Int) : Json
  | strj (s : String) : Json
  | arrj (xs : List Json) : Json
  | objj (fields : List (String × Json)) : Json

/-- Entry of the component map as used by the renderer: the resolved value
of `entry.loader()` (`Except.error` models a rejected loader promise) and
the optional `transformProps` (which may throw, modelled by
`Except.error`). -/
structure ComponentEntry where
  loader : Except String Module
  transformProps : Option (Json → Except String Json)

/-- Error message thrown by `resolveComponent` / the runtime resolver. -/
def noExportMsg (k : String) : String :=
  "Component \"" ++ k ++ "\" has no valid export"

/-- `utils.ts` `resolveComponent`: awaits the loader, picks
`module.default || module[componentKey] || Object.values(module).find(isValidComponent)`
and throws when the picked value is missing or not a valid component. -/
def resolveComponent (entry : ComponentEntry) (componentKey : String) :
    Except String JSVal :=
  match entry.loader with
  | Except.error e => Except.error e
  | Except.ok m =>
    let comp :=
      jsOr (jsOr (moduleGet m "default") (moduleGet m componentKey))
        (jsFind isValidComponent (moduleValues m))
    if truthy comp && isValidComponent comp then Except.ok comp
    else Except.error (noExportMsg componentKey)

/-! ### The identifier normalizer (`server.ts` `componentIdToKey`)

`String.prototype.split` with a one-character separator is modelled by
`splitChar` on the character list; `word.charAt(0).toUpperCase() +
word.slice(1)` by `jsCapitalize`; `pascalCase.startsWith(idPrefix)` /
`slice(idPrefix.length)` by list-level operations (code points stand in
for UTF-16 units, which agrees on all realistic identifiers). -/

/-- `s.split(sep)` on character lists: `"" ↦ [""]`, separators at the ends
produce empty segments, exactly as in JS. -/
def splitChar (sep : Char) : List Char → List (List Char)
  | [] => [[]]
  | c :: rest =>
    let r := splitChar sep rest
    if c = sep then [] :: r
    else
      match r with
      | [] => [[c]]
      | w :: ws => (c :: w) :: ws

/-- `word.charAt(0).toUpperCase() + word.slice(1)` (empty word unchanged). -/
def jsCapitalize (w : String) : String :=
  match w.data with
  | [] => ""
  | c :: rest => String.mk (Char.toUpper c :: rest)

/-- Snake-case to PascalCase: split on `_`, capitalize each word, join. -/
def jsPascal (s : String) : String :=
  String.join ((splitChar '_' s.data).map (fun w => jsCapitalize (String.mk w)))

/-- `s.startsWith(p)` modelled on character lists. -/
def jsStartsWith (s p : String) : Bool :=
  p.data.isPrefixOf s.data

/-- The `idPrefix` stripping step of `componentIdToKey`: JS tests
`if (idPrefix && pascalCase.startsWith(idPrefix))`, so an empty (falsy)
prefix never strips. -/
def jsStripPre (pre : Option String) (s : String) : String :=
  match pre with
  | none => s
  | some p => if p = "" then s else
      if jsStartsWith s p then String.mk (s.data.drop p.data.length) else s

/-- `server.ts` `componentIdToKey`: `componentId.split('.')[1]` (accessing
`[1]` of a one-element split yields `undefined`, and the subsequent
`.split('_')` then throws a `TypeError`, modelled by `none`), then
snake-to-Pascal conversion and prefix stripping. -/
def componentIdToKey (componentId : String) (idPref : Option String) :
    Option String :=
  match (splitChar '.' componentId.data).get? 1 with
  | none => none
  | some seg => some (jsStripPre idPref (jsPascal (String.mk seg)))

/-! ### The server sink (`server.ts`) -/

/-- A component from Drupal Canvas JSON:API response (`server.ts`,
interface `DrupalCanvasComponent`). -/
structure DrupalCanvasComponent where
  uuid : String
  parent_uuid : Option String
  slot : Option String
  component_id : String
  inputs : String
deriving DecidableEq, Repr

/-- `child.slot || 'children'`: `null` and `""` are falsy. -/
def effSlot (c : DrupalCanvasComponent) : String :=
  match c.slot with
  | none => "children"
  | some s => if s = "" then "children" else s

/-- One step of filling the insertion-ordered `Map` of
`getChildrenBySlot`: append to an existing bucket, or add a new key at the
end (JS `Map` iteration order is key insertion order). -/
def pushSlot (m : List (String × List DrupalCanvasComponent)) (s : String)
    (c : DrupalCanvasComponent) : List (String × List DrupalCanvasComponent) :=
  match m with
  | [] => [(s, [c])]
  | (k, v) :: rest =>
    if k == s then (k, v ++ [c]) :: rest else (k, v) :: pushSlot rest s c

/-- `server.ts` `getChildrenBySlot`: filter the flat list by
`parent_uuid`, then group by effective slot, preserving input order inside
each bucket and bucket creation order. -/
def getChildrenBySlot (records : List DrupalCanvasComponent)
    (parentUuid : Option String) : List (String × List DrupalCanvasComponent) :=
  (records.filter (fun c => c.parent_uuid == parentUuid)).foldl
    (fun m c => pushSlot m (effSlot c) c) []

/-- A rendered React node, at the level of detail the renderer produces:
`nullNode` is the `null` placeholder, `list` an array of nodes
(`Promise.all` result), `scalar` a JSON prop value, `custom` an opaque
node supplied by an `onError` handler, and `elem` a `createElement`
result: the component value together with the config object passed to
`createElement` (which carries `key`, the props and the slots). -/
inductive RVal where
  | nullNode : RVal
  | custom (id : Nat) : RVal
  | scalar (j : Json) : RVal
  | list (xs : List RVal) : RVal
  | elem (comp : JSVal) (config : List (String × RVal)) : RVal

/-- JS property assignment `o[k] = v` on an object literal under
construction: overwrite the first occurrence in place, else append. -/
def objSet (o : List (String × RVal)) (k : String) (v : RVal) :
    List (String × RVal) :=
  match o with
  | [] => [(k, v)]
  | (k0, v0) :: rest =>
    if k0 == k then (k0, v) :: rest else (k0, v0) :: objSet rest k v

/-- Object spread `{...a, ...b}`: assign every entry of `b`, in order,
onto `a`. -/
def objSpread (a b : List (String × RVal)) : List (String × RVal) :=
  b.foldl (fun acc kv => objSet acc kv.1 kv.2) a

/-- Spreading a JSON value into an object literal (`{...props}`): objects
contribute their fields, arrays and strings their indexed elements, and
primitives nothing — as JS object spread does. -/
def jsonToObj : Json → List (String × RVal)
  | Json.objj fields => fields.map (fun kv => (kv.1, RVal.scalar kv.2))
  | Json.arrj xs => xs.enum.map (fun iv => (toString iv.1, RVal.scalar iv.2))
  | Json.strj s =>
      s.data.enum.map (fun ic => (toString ic.1, RVal.scalar (Json.strj (String.mk [ic.2]))))
  | _ => []

/-- Error message of `server.ts` line 105. -/
def notFoundMsg (k : String) : String :=
  "Component \"" ++ k ++ "\" not found in component map"

/-- The `TypeError` raised by `componentIdToKey` on an id without a dot. -/
def typeErrMsg : String :=
  "TypeError: Cannot read properties of undefined"

/-- The part of `config` the server sink reads
(`Pick CanvasConfig components idPrefix`); `idPref` models the source
field `idPrefix`. -/
structure RenderConfig where
  components : List (String × ComponentEntry)
  idPref : Option String

/-- `RenderOptions`: the optional `onError` handler receives the error and
the failing record and returns a replacement node or nothing
(`undefined`). -/
structure RenderOptions where
  onError : Option (String → DrupalCanvasComponent → Option RVal)

/-- The failure-prone prefix of `renderComponent`
(`server.ts` lines 101–111): key normalization, component-map lookup,
`resolveComponent`, `JSON.parse(component.inputs)` (the host parser is the
`parse` parameter) and `transformProps`.  Returns the resolved component
and the final props, or the first thrown error. -/
def prepare (parse : String → Except String Json) (cfg : RenderConfig)
    (component : DrupalCanvasComponent) : Except String (JSVal × Json) :=
  match componentIdToKey component.component_id cfg.idPref with
  | none => Except.error typeErrMsg
  | some componentKey =>
    match cfg.components.lookup componentKey with
    | none => Except.error (notFoundMsg componentKey)
    | some entry =>
      match resolveComponent entry componentKey with
      | Except.error e => Except.error e
      | Except.ok comp =>
        match parse component.inputs with
        | Except.error e => Except.error e
        | Except.ok inputs =>
          match entry.transformProps with
          | some t =>
            match t inputs with
            | Except.error e => Except.error e
            | Except.ok props => Except.ok (comp, props)
          | none => Except.ok (comp, inputs)

/-- One level of `renderComponent` (`server.ts` lines 97–130), with the
recursive call abstracted as `render`.  The second component of the result
is the instrumentation: the list of records on which `renderComponent` is
invoked in this subtree (the node itself, then — only when the `try` block
reaches the slot loop — the children, bucket by bucket).  On an error the
`catch` block returns the handler substitute (`?? null`) or `null`;
children of a failed node are not attempted. -/
def renderStep (parse : String → Except String Json) (cfg : RenderConfig)
    (opts : RenderOptions) (records : List DrupalCanvasComponent)
    (render : DrupalCanvasComponent → RVal × List DrupalCanvasComponent)
    (component : DrupalCanvasComponent) :
    RVal × List DrupalCanvasComponent :=
  match prepare parse cfg component with
  | Except.error e =>
    match opts.onError with
    | some handler => ((handler e component).getD RVal.nullNode, [component])
    | none => (RVal.nullNode, [component])
  | Except.ok (comp, props) =>
    let rendered := (getChildrenBySlot records (some component.uuid)).map
      (fun kv => (kv.1, kv.2.map render))
    let slotsObj := rendered.map
      (fun kv => (kv.1, RVal.list (kv.2.map Prod.fst)))
    let config := objSpread
      (objSpread [("key", RVal.scalar (Json.strj component.uuid))] (jsonToObj props))
      slotsObj
    (RVal.elem comp config,
      component :: rendered.flatMap (fun kv => kv.2.flatMap Prod.snd))

/-- `renderComponent`, made total with a recursion-depth fuel.  The source
recursion terminates on every input reachable from a root (the traversal
is strictly top-down), and `renderCanvasComponents` below supplies fuel
`records.length`, which suffices for any list with unique ids. -/
def renderComponent (parse : String → Except String Json) (cfg : RenderConfig)
    (opts : RenderOptions) (records : List DrupalCanvasComponent) :
    Nat → DrupalCanvasComponent → RVal × List DrupalCanvasComponent
  | 0 => fun component => (RVal.nullNode, [component])
  | fuel + 1 =>
    renderStep parse cfg opts records (renderComponent parse cfg opts records fuel)

/-- `server.ts` lines 132–133: the roots are the `'children'` bucket of
the null-parent group; the result is their renders in order. -/
def renderCanvasComponents (parse : String → Except String Json)
    (cfg : RenderConfig) (opts : RenderOptions)
    (records : List DrupalCanvasComponent) : List RVal :=
  let rootComponents :=
    ((getChildrenBySlot records none).lookup "children").getD []
  rootComponents.map
    (fun c => (renderComponent parse cfg opts records records.length c).1)

/-- Instrumentation of `renderCanvasComponents`: all records on which
`renderComponent` is invoked during the call. -/
def visitedAll (parse : String → Except String Json) (cfg : RenderConfig)
    (opts : RenderOptions) (records : List DrupalCanvasComponent) :
    List DrupalCanvasComponent :=
  (((getChildrenBySlot records none).lookup "children").getD []).flatMap
    (fun c => (renderComponent parse cfg opts records records.length c).2)

/-- The config object of a rendered element (empty for non-elements). -/
def elemConfig : RVal → List (String × RVal)
  | RVal.elem _ config => config
  | _ => []

/-- The identity key a rendered element carries: the `key` entry of the
`createElement` config. -/
def identityKey (v : RVal) : Option RVal :=
  (elemConfig v).lookup "key"

/-! ### The browser sink (`runtime.ts` `createRenderFunction`) -/

/-- Result of a successful browser `render` call: the promise resolves to
the container that was passed in, and `mounted` is the element tree handed
to `createRoot(container).render` (replacing previous contents). -/
structure RenderOutcome where
  container : Nat
  mounted : RVal

/-- The `render` function returned by `createRenderFunction`
(`runtime.ts` lines 41–79).  `parseHtml` models the `parse` of
`html-react-parser`; the DOM container is an opaque handle.  The entries
of the runtime component map carry the same `loader` shape as the server
map (`transformProps` is not read here, as in the source).  Lookup
failure, loader rejection and resolution failure reject the promise;
otherwise each slot markup string is parsed, `{...props, ...parsedSlots}`
is composed and mounted. -/
def runtimeRender (parseHtml : String → RVal)
    (components : List (String × ComponentEntry)) (container : Nat)
    (componentName : String) (props : List (String × RVal))
    (slots : List (String × String)) : Except String RenderOutcome :=
  match components.lookup componentName with
  | none => Except.error ("Component " ++ componentName ++ " not found")
  | some entry =>
    match entry.loader with
    | Except.error e => Except.error e
    | Except.ok m =>
      let comp :=
        jsOr (jsOr (moduleGet m "default") (moduleGet m componentName))
          (jsFind isValidComponent (moduleValues m))
      if truthy comp && isValidComponent comp then
        let parsedSlots := slots.map (fun kv => (kv.1, parseHtml kv.2))
        Except.ok ⟨container, RVal.elem comp (objSpread props parsedSlots)⟩
      else
        Except.error ("Component " ++ componentName ++ " has no valid export")

/-! ### Spec-side comparator for the normalizer claim

The claims describe the normalizer as acting on "the remainder" after the
first `.` of the type id.  The following definitions follow those words
(not the source) and exist only to be compared against
`componentIdToKey`. -/

/-- Characters of `l` before the first occurrence of `sep`. -/
def takeUntil (sep : Char) : List Char → List Char
  | [] => []
  | c :: rest => if c = sep then [] else c :: takeUntil sep rest

/-- Characters of `l` after the first occurrence of `sep` (all of them),
`[]` when `sep` does not occur. -/
def dropThrough (sep : Char) : List Char → List Char
  | [] => []
  | c :: rest => if c = sep then rest else dropThrough sep rest

/-- The segment of `s` between the first and the second `.`. -/
def secondSegment (s : String) : String :=
  String.mk (takeUntil '.' (dropThrough '.' s.data))

/-- The normalizer as the claim words it: split `typeId` on the first
`.`, discard the segment before it, convert the whole remainder from
snake_case to PascalCase, then strip the prefix.  (Spec-side definition,
for comparison with `componentIdToKey`.) -/
def specNormalizeRemainder (typeId : String) (pre : Option String) : String :=
  jsStripPre pre (jsPascal (String.mk (dropThrough '.' typeId.data)))

/-! ### Concrete fixtures

Small concrete instances used to evaluate the theorems below on closed
inputs.  `sParse` models `JSON.parse` on the exact strings the fixtures
use (an object-typed serialized-props string parses to the object, other
strings raise a SyntaxError). -/

def sVal : JSVal := JSVal.func 0

def sEntry : ComponentEntry := ⟨Except.ok ⟨[("default", sVal)]⟩, none⟩

def sCfg : RenderConfig := ⟨[("Test", sEntry)], none⟩

def sParse : String → Except String Json := fun s =>
  if s = "\x7b\x7d" then Except.ok (Json.objj [])
  else Except.error "SyntaxError: Unexpected token"

def sRoot : DrupalCanvasComponent := ⟨"1", none, none, "x.test", "\x7b\x7d"⟩

def sChild : DrupalCanvasComponent := ⟨"2", some "1", none, "x.test", "\x7b\x7d"⟩

def sDangling : DrupalCanvasComponent := ⟨"3", some "ghost", none, "x.test", "\x7b\x7d"⟩

def sRecords : List DrupalCanvasComponent := [sRoot, sChild, sDangling]

def sBad : DrupalCanvasComponent := ⟨"9", none, none, "x.missing", "\x7b\x7d"⟩

def sRecords2 : List DrupalCanvasComponent := [sBad]

def sHandler : String → DrupalCanvasComponent → Option RVal :=
  fun _ _ => some (RVal.custom 42)

def kParse : String → Except String Json := fun s =>
  if s = "\x7b\"key\":\"evil\"\x7d" then
    Except.ok (Json.objj [("key", Json.strj "evil")])
  else Except.error "SyntaxError: Unexpected token"

def kRec : DrupalCanvasComponent :=
  ⟨"1", none, none, "x.test", "\x7b\"key\":\"evil\"\x7d"⟩

def colParse : String → Except String Json := fun s =>
  if s = "\x7b\"children\":\"x\"\x7d" then
    Except.ok (Json.objj [("children", Json.strj "x")])
  else Except.ok (Json.objj [])

def colRoot : DrupalCanvasComponent :=
  ⟨"1", none, none, "x.test", "\x7b\"children\":\"x\"\x7d"⟩

def colChild : DrupalCanvasComponent := ⟨"2", some "1", none, "x.test", "\x7b\x7d"⟩

def colRecords : List DrupalCanvasComponent := [colRoot, colChild]

def rtParse : String → RVal := fun s => RVal.custom s.length

def rtComponents : List (String × ComponentEntry) :=
  [("X", ⟨Except.ok ⟨[]⟩, none⟩)]

def rtGoodVal : JSVal := JSVal.func 3

def rtRejComponents : List (String × ComponentEntry) :=
  [("Z", ⟨Except.error "NetworkError: import failed", none⟩)]

def rtGoodComponents : List (String × ComponentEntry) :=
  [("Y", ⟨Except.ok ⟨[("default", rtGoodVal)]⟩, none⟩)]

def rtProps : List (String × RVal) := [("title", RVal.scalar (Json.strj "t"))]

def rtSlots : List (String × String) := [("header", "<b>hi</b>")]

/-! ### Association-list and splitting lemmas -/

theorem strBeqFalse {t k : String} (h : t ≠ k) : (t == k) = false :=
  beq_eq_false_iff_ne.mpr h

theorem lookupCons {β : Type} (t k : String) (v : β) (rest : List (String × β)) :
    List.lookup t ((k, v) :: rest) = if t = k then some v else List.lookup t rest := by
  by_cases h : t = k
  · subst h
    simp [List.lookup]
  · simp [List.lookup, strBeqFalse h, h]

theorem lookup_eq_none_iff {β : Type} (m : List (String × β)) (t : String) :
    List.lookup t m = none ↔ t ∉ m.map Prod.fst := by
  induction m with
  | nil => simp [List.lookup]
  | cons kv rest ih =>
    obtain ⟨k, v⟩ := kv
    by_cases h : t = k
    · subst h
      simp [lookupCons]
    · simp [lookupCons, h, ih]

theorem lookup_append {β : Type} (a b : List (String × β)) (t : String) :
    List.lookup t (a ++ b) =
      match List.lookup t a with
      | some v => some v
      | none => List.lookup t b := by
  induction a with
  | nil => simp [List.lookup]
  | cons kv rest ih =>
    obtain ⟨k, v⟩ := kv
    by_cases h : t = k
    · subst h
      simp [lookupCons]
    · simp [lookupCons, h, ih]

theorem lookup_map_value {β γ : Type} (f : β → γ) (m : List (String × β)) (t : String) :
    List.lookup t (m.map (fun kv => (kv.1, f kv.2))) = (List.lookup t m).map f := by
  induction m with
  | nil => simp [List.lookup]
  | cons kv rest ih =>
    obtain ⟨k, v⟩ := kv
    by_cases h : t = k
    · subst h
      simp [lookupCons]
    · simp [lookupCons, h, ih]

theorem lookup_pushSlot (m : List (String × List DrupalCanvasComponent))
    (s : String) (c : DrupalCanvasComponent) (t : String) :
    List.lookup t (pushSlot m s c) =
      if t = s then some (((List.lookup t m).getD []) ++ [c])
      else List.lookup t m := by
  induction m with
  | nil =>
    simp only [pushSlot, lookupCons]
    by_cases h : t = s <;> simp [h, List.lookup]
  | cons kv rest ih =>
    obtain ⟨k, v⟩ := kv
    simp only [pushSlot]
    by_cases hks : k = s
    · subst hks
      rw [if_pos (by simp)]
      by_cases h : t = k
      · subst h
        simp [lookupCons]
      · simp [lookupCons, h]
    · rw [if_neg (by simpa using hks)]
      by_cases h : t = k
      · subst h
        rw [lookupCons, if_pos rfl, if_neg hks, lookupCons, if_pos rfl]
      · rw [lookupCons, if_neg h, ih, lookupCons, if_neg h]

theorem keys_pushSlot (m : List (String × List DrupalCanvasComponent))
    (s : String) (c : DrupalCanvasComponent) :
    (pushSlot m s c).map Prod.fst =
      if s ∈ m.map Prod.fst then m.map Prod.fst else m.map Prod.fst ++ [s] := by
  induction m with
  | nil => simp [pushSlot]
  | cons kv rest ih =>
    obtain ⟨k, v⟩ := kv
    simp only [pushSlot]
    by_cases hks : k = s
    · subst hks
      simp
    · rw [if_neg (by simpa using hks)]
      simp only [List.map_cons, ih, List.mem_cons]
      by_cases hmem : s ∈ rest.map Prod.fst
      · simp [hmem, Ne.symm hks]
      · simp [hmem, Ne.symm hks]

theorem lookup_groupFold (cs : List DrupalCanvasComponent)
    (m : List (String × List DrupalCanvasComponent)) (s : String) :
    List.lookup s (cs.foldl (fun acc c => pushSlot acc (effSlot c) c) m) =
      if cs.filter (fun c => effSlot c == s) = [] then List.lookup s m
      else some ((List.lookup s m).getD [] ++ cs.filter (fun c => effSlot c == s)) := by
  induction cs generalizing m with
  | nil => simp
  | cons c cs ih =>
    rw [List.foldl_cons, ih]
    by_cases hc : effSlot c = s
    · by_cases h0 : cs.filter (fun c => effSlot c == s) = [] <;>
        simp [List.filter_cons, lookup_pushSlot, hc, h0]
    · simp [List.filter_cons, lookup_pushSlot, strBeqFalse hc, Ne.symm hc]

theorem lookup_getChildrenBySlot (records : List DrupalCanvasComponent)
    (p : Option String) (s : String) :
    List.lookup s (getChildrenBySlot records p) =
      if records.filter (fun c => c.parent_uuid == p && effSlot c == s) = [] then none
      else some (records.filter (fun c => c.parent_uuid == p && effSlot c == s)) := by
  unfold getChildrenBySlot
  rw [lookup_groupFold, List.filter_filter]
  have hcomm :
      (records.filter fun c => (effSlot c == s) && (c.parent_uuid == p)) =
        records.filter fun c => (c.parent_uuid == p) && (effSlot c == s) := by
    induction records with
    | nil => rfl
    | cons c cs ihc =>
      simp only [List.filter_cons, Bool.and_comm, ihc]
  rw [hcomm]
  by_cases h0 : records.filter (fun c => (c.parent_uuid == p) && (effSlot c == s)) = []
  · simp [h0, List.lookup]
  · simp [h0, List.lookup]

theorem nodup_keys_groupFold (cs : List DrupalCanvasComponent)
    (m : List (String × List DrupalCanvasComponent)) (h : (m.map Prod.fst).Nodup) :
    ((cs.foldl (fun acc c => pushSlot acc (effSlot c) c) m).map Prod.fst).Nodup := by
  induction cs generalizing m with
  | nil => exact h
  | cons c cs ih =>
    rw [List.foldl_cons]
    apply ih
    rw [keys_pushSlot]
    by_cases hm : effSlot c ∈ m.map Prod.fst
    · simpa [hm] using h
    · simp [hm, List.nodup_append, h]

theorem nodup_keys_getChildrenBySlot (records : List DrupalCanvasComponent)
    (p : Option String) :
    ((getChildrenBySlot records p).map Prod.fst).Nodup :=
  nodup_keys_groupFold _ _ (by simp)

theorem lookup_objSet (o : List (String × RVal)) (k : String) (v : RVal) (t : String) :
    List.lookup t (objSet o k v) = if t = k then some v else List.lookup t o := by
  induction o with
  | nil =>
    simp only [objSet, lookupCons]
  | cons kv rest ih =>
    obtain ⟨k0, v0⟩ := kv
    simp only [objSet]
    by_cases hk : k0 = k
    · subst hk
      by_cases h : t = k0
      · subst h
        simp [lookupCons]
      · simp [lookupCons, h]
    · rw [if_neg (by simpa using hk)]
      simp only [lookupCons, ih]
      by_cases h : t = k0
      · by_cases h2 : t = k
        · exact absurd (h.symm.trans h2) hk
        · simp [h, h2, hk]
      · simp [h]

theorem lookup_objSpread (a b : List (String × RVal)) (t : String) :
    List.lookup t (objSpread a b) =
      match List.lookup t b.reverse with
      | some v => some v
      | none => List.lookup t a := by
  induction b generalizing a with
  | nil => simp [objSpread, List.lookup]
  | cons kv bs ih =>
    obtain ⟨k, v⟩ := kv
    have hstep : objSpread a ((k, v) :: bs) = objSpread (objSet a k v) bs := rfl
    rw [hstep, ih, List.reverse_cons, lookup_append, lookup_objSet]
    cases hbs : List.lookup t bs.reverse with
    | some w => rfl
    | none =>
      by_cases h : t = k
      · simp [lookupCons, h]
      · simp [lookupCons, h, strBeqFalse h, List.lookup]

theorem lookup_reverse_of_nodup (b : List (String × RVal)) (t : String)
    (h : (b.map Prod.fst).Nodup) :
    List.lookup t b.reverse = List.lookup t b := by
  induction b with
  | nil => rfl
  | cons kv bs ih =>
    obtain ⟨k, v⟩ := kv
    simp only [List.map_cons, List.nodup_cons] at h
    rw [List.reverse_cons, lookup_append, ih h.2, lookupCons]
    by_cases htk : t = k
    · subst htk
      have hnone : List.lookup t bs = none := (lookup_eq_none_iff bs t).mpr h.1
      simp [hnone, lookupCons]
    · cases hbs : List.lookup t bs with
      | some w => simp [hbs, lookupCons, htk]
      | none => simp [hbs, lookupCons, htk, strBeqFalse htk, List.lookup]

theorem lookup_objSpread_right (a b : List (String × RVal)) (t : String) (v : RVal)
    (hnd : (b.map Prod.fst).Nodup) (hv : List.lookup t b = some v) :
    List.lookup t (objSpread a b) = some v := by
  rw [lookup_objSpread, lookup_reverse_of_nodup b t hnd, hv]

theorem lookup_objSpread_left (a b : List (String × RVal)) (t : String)
    (hb : t ∉ b.map Prod.fst) :
    List.lookup t (objSpread a b) = List.lookup t a := by
  have hnone : List.lookup t b.reverse = none := by
    rw [lookup_eq_none_iff]
    simpa using hb
  rw [lookup_objSpread, hnone]

/-! ### Lemmas about `splitChar` -/

theorem splitChar_ne_nil (sep : Char) (l : List Char) : splitChar sep l ≠ [] := by
  induction l with
  | nil => simp [splitChar]
  | cons c rest ih =>
    simp only [splitChar]
    by_cases h : c = sep
    · simp [h]
    · simp only [if_neg h]
      cases hr : splitChar sep rest with
      | nil => simp
      | cons w ws => simp

theorem head_splitChar (sep : Char) (l : List Char) :
    (splitChar sep l).head? = some (takeUntil sep l) := by
  induction l with
  | nil => rfl
  | cons c rest ih =>
    simp only [splitChar, takeUntil]
    by_cases h : c = sep
    · simp [h]
    · simp only [if_neg h]
      cases hr : splitChar sep rest with
      | nil => exact absurd hr (splitChar_ne_nil sep rest)
      | cons w ws =>
        rw [hr] at ih
        simp only [List.head?_cons, Option.some.injEq] at ih
        simp [h, ih]

theorem splitChar_not_mem (sep : Char) (l : List Char) (h : sep ∉ l) :
    splitChar sep l = [l] := by
  induction l with
  | nil => rfl
  | cons c rest ih =>
    simp only [List.mem_cons, not_or] at h
    have hcs : ¬c = sep := fun he => h.1 (Eq.symm he)
    simp [splitChar, hcs, ih h.2]

theorem splitChar_get1 (sep : Char) (l : List Char) (h : sep ∈ l) :
    (splitChar sep l).get? 1 = some (takeUntil sep (dropThrough sep l)) := by
  induction l with
  | nil => cases h
  | cons c rest ih =>
    by_cases hc : c = sep
    · subst hc
      simp only [splitChar, dropThrough, eq_self_iff_true, if_true]
      rw [List.get?_cons_succ, List.get?_zero, head_splitChar]
    · have hm : sep ∈ rest := by
        cases List.mem_cons.mp h with
        | inl he => exact absurd he.symm hc
        | inr hr => exact hr
      simp only [splitChar, if_neg hc, dropThrough, if_neg hc]
      cases hr : splitChar sep rest with
      | nil => exact absurd hr (splitChar_ne_nil sep rest)
      | cons w ws =>
        have hii := ih hm
        rw [hr] at hii
        simpa using hii

theorem splitChar_get1_not_mem (sep : Char) (l : List Char) (h : sep ∉ l) :
    (splitChar sep l).get? 1 = none := by
  rw [splitChar_not_mem sep l h]
  rfl

/-! ### Unfolding lemmas for the renderer -/

theorem renderComponent_succ (parse : String → Except String Json)
    (cfg : RenderConfig) (opts : RenderOptions)
    (records : List DrupalCanvasComponent) (fuel : Nat)
    (component : DrupalCanvasComponent) :
    renderComponent parse cfg opts records (fuel + 1) component =
      renderStep parse cfg opts records
        (renderComponent parse cfg opts records fuel) component := rfl

theorem renderStep_error_handler (parse : String → Except String Json)
    (cfg : RenderConfig) (opts : RenderOptions)
    (records : List DrupalCanvasComponent)
    (render : DrupalCanvasComponent → RVal × List DrupalCanvasComponent)
    (component : DrupalCanvasComponent) (e : String)
    (handler : String → DrupalCanvasComponent → Option RVal)
    (he : prepare parse cfg component = Except.error e)
    (hopts : opts.onError = some handler) :
    renderStep parse cfg opts records render component =
      ((handler e component).getD RVal.nullNode, [component]) := by
  simp only [renderStep, he, hopts]

theorem renderStep_error_noHandler (parse : String → Except String Json)
    (cfg : RenderConfig) (opts : RenderOptions)
    (records : List DrupalCanvasComponent)
    (render : DrupalCanvasComponent → RVal × List DrupalCanvasComponent)
    (component : DrupalCanvasComponent) (e : String)
    (he : prepare parse cfg component = Except.error e)
    (hopts : opts.onError = none) :
    renderStep parse cfg opts records render component =
      (RVal.nullNode, [component]) := by
  simp only [renderStep, he, hopts]

theorem renderStep_ok (parse : String → Except String Json)
    (cfg : RenderConfig) (opts : RenderOptions)
    (records : List DrupalCanvasComponent)
    (render : DrupalCanvasComponent → RVal × List DrupalCanvasComponent)
    (component : DrupalCanvasComponent) (comp : JSVal) (props : Json)
    (hok : prepare parse cfg component = Except.ok (comp, props)) :
    renderStep parse cfg opts records render component =
      (RVal.elem comp (objSpread
          (objSpread [("key", RVal.scalar (Json.strj component.uuid))]
            (jsonToObj props))
          (((getChildrenBySlot records (some component.uuid)).map
              (fun kv => (kv.1, kv.2.map render))).map
            (fun kv => (kv.1, RVal.list (kv.2.map Prod.fst))))),
        component ::
          ((getChildrenBySlot records (some component.uuid)).map
              (fun kv => (kv.1, kv.2.map render))).flatMap
            (fun kv => kv.2.flatMap Prod.snd)) := by
  simp only [renderStep, hok]

/-! ### Membership lemmas for the grouping -/

theorem mem_pushSlot (m : List (String × List DrupalCanvasComponent))
    (s : String) (c : DrupalCanvasComponent)
    (kv : String × List DrupalCanvasComponent) (c2 : DrupalCanvasComponent)
    (hkv : kv ∈ pushSlot m s c) (hc2 : c2 ∈ kv.2) :
    (∃ kv0 ∈ m, c2 ∈ kv0.2) ∨ c2 = c := by
  induction m with
  | nil =>
    simp only [pushSlot, List.mem_singleton] at hkv
    subst hkv
    simp only [List.mem_singleton] at hc2
    exact Or.inr hc2
  | cons kv0 rest ih =>
    obtain ⟨k, v⟩ := kv0
    simp only [pushSlot] at hkv
    by_cases hks : k = s
    · rw [if_pos (by simpa using hks)] at hkv
      cases List.mem_cons.mp hkv with
      | inl he =>
        subst he
        simp only [List.mem_append, List.mem_singleton] at hc2
        cases hc2 with
        | inl hv => exact Or.inl ⟨(k, v), List.mem_cons_self _ _, hv⟩
        | inr hc => exact Or.inr hc
      | inr hrest =>
        exact Or.inl ⟨kv, List.mem_cons_of_mem _ hrest, hc2⟩
    · rw [if_neg (by simpa using hks)] at hkv
      cases List.mem_cons.mp hkv with
      | inl he =>
        subst he
        exact Or.inl ⟨(k, v), List.mem_cons_self _ _, hc2⟩
      | inr hrest =>
        cases ih hrest with
        | inl hm =>
          obtain ⟨kv1, hkv1, hc21⟩ := hm
          exact Or.inl ⟨kv1, List.mem_cons_of_mem _ hkv1, hc21⟩
        | inr hc => exact Or.inr hc

theorem mem_groupFold (cs : List DrupalCanvasComponent)
    (m : List (String × List DrupalCanvasComponent))
    (kv : String × List DrupalCanvasComponent) (c2 : DrupalCanvasComponent)
    (hkv : kv ∈ cs.foldl (fun acc c => pushSlot acc (effSlot c) c) m)
    (hc2 : c2 ∈ kv.2) :
    (∃ kv0 ∈ m, c2 ∈ kv0.2) ∨ c2 ∈ cs := by
  induction cs generalizing m with
  | nil => exact Or.inl ⟨kv, hkv, hc2⟩
  | cons c cs ih =>
    rw [List.foldl_cons] at hkv
    cases ih (pushSlot m (effSlot c) c) hkv with
    | inl hm =>
      obtain ⟨kv0, hkv0, hc20⟩ := hm
      cases mem_pushSlot m (effSlot c) c kv0 c2 hkv0 hc20 with
      | inl hmm => exact Or.inl hmm
      | inr he => exact Or.inr (he ▸ List.mem_cons_self _ _)
    | inr hcs => exact Or.inr (List.mem_cons_of_mem _ hcs)

/-- Every record in any bucket of `getChildrenBySlot records p` is a record
of the list whose `parent_uuid` equals `p`. -/
theorem mem_getChildrenBySlot (records : List DrupalCanvasComponent)
    (p : Option String) (kv : String × List DrupalCanvasComponent)
    (c2 : DrupalCanvasComponent) (hkv : kv ∈ getChildrenBySlot records p)
    (hc2 : c2 ∈ kv.2) : c2 ∈ records ∧ c2.parent_uuid = p := by
  cases mem_groupFold _ [] kv c2 hkv hc2 with
  | inl hm =>
    obtain ⟨kv0, hkv0, _⟩ := hm
    cases hkv0
  | inr hf =>
    have := List.mem_filter.mp hf
    exact ⟨this.1, by simpa using this.2⟩

/-- A record whose `parent_uuid` names a uuid that no record of the list
carries is never passed to `renderComponent`, at any fuel, from any record
whose own parent is the root or an existing uuid. -/
theorem not_visited_of_dangling (parse : String → Except String Json)
    (cfg : RenderConfig) (opts : RenderOptions)
    (records : List DrupalCanvasComponent) (r : DrupalCanvasComponent)
    (pid : String) (hr : r.parent_uuid = some pid)
    (hpid : pid ∉ records.map (fun c => c.uuid)) :
    ∀ (fuel : Nat) (c : DrupalCanvasComponent), c ∈ records →
      (c.parent_uuid = none ∨
        ∃ u, c.parent_uuid = some u ∧ u ∈ records.map (fun c => c.uuid)) →
      r ∉ (renderComponent parse cfg opts records fuel c).2 := by
  have rneq : ∀ c, c ∈ records →
      (c.parent_uuid = none ∨
        ∃ u, c.parent_uuid = some u ∧ u ∈ records.map (fun c => c.uuid)) →
      r ≠ c := by
    intro c _ hpar he
    subst he
    cases hpar with
    | inl hn => rw [hr] at hn; cases hn
    | inr hu =>
      obtain ⟨u, hu1, hu2⟩ := hu
      rw [hr] at hu1
      cases hu1
      exact hpid hu2
  intro fuel
  induction fuel with
  | zero =>
    intro c hc hpar hmem
    simp only [renderComponent, List.mem_singleton] at hmem
    exact rneq c hc hpar hmem
  | succ fuel ih =>
    intro c hc hpar hmem
    rw [renderComponent_succ] at hmem
    cases hprep : prepare parse cfg c with
    | error e =>
      cases hopts : opts.onError with
      | some handler =>
        rw [renderStep_error_handler parse cfg opts records _ c e handler hprep hopts] at hmem
        simp only [List.mem_singleton] at hmem
        exact rneq c hc hpar hmem
      | none =>
        rw [renderStep_error_noHandler parse cfg opts records _ c e hprep hopts] at hmem
        simp only [List.mem_singleton] at hmem
        exact rneq c hc hpar hmem
    | ok cp =>
      obtain ⟨comp, props⟩ := cp
      rw [renderStep_ok parse cfg opts records _ c comp props hprep] at hmem
      cases List.mem_cons.mp hmem with
      | inl he => exact rneq c hc hpar he
      | inr hrest =>
        rw [List.mem_flatMap] at hrest
        obtain ⟨kv1, hkv1, hr1⟩ := hrest
        rw [List.mem_map] at hkv1
        obtain ⟨kv, hkv, hkve⟩ := hkv1
        subst hkve
        rw [List.mem_flatMap] at hr1
        obtain ⟨x, hx, hrx⟩ := hr1
        rw [List.mem_map] at hx
        obtain ⟨c2, hc2, hxe⟩ := hx
        subst hxe
        have hmm := mem_getChildrenBySlot records (some c.uuid) kv c2 hkv hc2
        exact ih c2 hmm.1
          (Or.inr ⟨c.uuid, hmm.2, List.mem_map.mpr ⟨c, hc, rfl⟩⟩) hrx

theorem truthy_of_valid {v : JSVal} (h : isValidComponent v = true) :
    truthy v = true := by
  cases v <;> simp_all [isValidComponent, truthy]

/-! ### Claim theorems -/

/-- C3: `resolveComponent entry key` loads the module through the entry's
loader and selects, in order, (1) the module's default export when it is
truthy, (2) the export named `key` when it is truthy, (3) the first export
in the module's own enumeration order satisfying the renderable-unit
predicate `isValidComponent`; it fails with an error carrying the key when
the selection is missing or not a renderable unit, and otherwise returns
the selected candidate. -/
theorem resolveComponent_selection (entry : ComponentEntry) (m : Module)
    (k : String) (hl : entry.loader = Except.ok m) :
    (truthy (moduleGet m "default") = true →
      resolveComponent entry k =
        (if isValidComponent (moduleGet m "default") then
          Except.ok (moduleGet m "default")
        else Except.error (noExportMsg k))) ∧
    (truthy (moduleGet m "default") = false → truthy (moduleGet m k) = true →
      resolveComponent entry k =
        (if isValidComponent (moduleGet m k) then Except.ok (moduleGet m k)
        else Except.error (noExportMsg k))) ∧
    (truthy (moduleGet m "default") = false → truthy (moduleGet m k) = false →
      resolveComponent entry k =
        (match (moduleValues m).find? isValidComponent with
        | some v => Except.ok v
        | none => Except.error (noExportMsg k))) := by
  refine ⟨?_, ?_, ?_⟩
  · intro hd
    by_cases hv : isValidComponent (moduleGet m "default") = true
    · simp [resolveComponent, hl, jsOr, hd, hv]
    · rw [Bool.not_eq_true] at hv
      simp [resolveComponent, hl, jsOr, hd, hv]
  · intro hd hn
    by_cases hv : isValidComponent (moduleGet m k) = true
    · simp [resolveComponent, hl, jsOr, hd, hn, hv]
    · rw [Bool.not_eq_true] at hv
      simp [resolveComponent, hl, jsOr, hd, hn, hv]
  · intro hd hn
    cases hf : (moduleValues m).find? isValidComponent with
    | some v =>
      have hvv : isValidComponent v = true := List.find?_some hf
      simp [resolveComponent, hl, jsOr, jsFind, hd, hn, hf, hvv, truthy_of_valid hvv]
    | none =>
      have hu : truthy JSVal.undef = false := rfl
      simp [resolveComponent, hl, jsOr, jsFind, hd, hn, hf, hu]

/-- C3 witness: a module whose only export is named like the key resolves
to that export through tier (2). -/
theorem resolveComponent_selection_witness :
    resolveComponent ⟨Except.ok ⟨[("Widget", JSVal.func 5)]⟩, none⟩ "Widget" =
      Except.ok (JSVal.func 5) := by
  have h := (resolveComponent_selection
    ⟨Except.ok ⟨[("Widget", JSVal.func 5)]⟩, none⟩
    ⟨[("Widget", JSVal.func 5)]⟩ "Widget" rfl).2.1 (by decide) (by decide)
  rw [h]
  rfl

/-- C10: the strict default-export policy of `resolveComponent`: a truthy
default export that is not a renderable unit makes resolution fail —
even when another export would qualify — and the later tiers are reached
only when the default export is absent or falsy. -/
theorem resolveComponent_strictDefault (entry : ComponentEntry) (m : Module)
    (k : String) (hl : entry.loader = Except.ok m) :
    (truthy (moduleGet m "default") = true →
      isValidComponent (moduleGet m "default") = false →
      resolveComponent entry k = Except.error (noExportMsg k)) ∧
    (truthy (moduleGet m "default") = false →
      resolveComponent entry k =
        (if truthy (jsOr (moduleGet m k) (jsFind isValidComponent (moduleValues m))) &&
            isValidComponent
              (jsOr (moduleGet m k) (jsFind isValidComponent (moduleValues m))) then
          Except.ok (jsOr (moduleGet m k) (jsFind isValidComponent (moduleValues m)))
        else Except.error (noExportMsg k))) := by
  constructor
  · intro hd hv
    simp [resolveComponent, hl, jsOr, hd, hv]
  · intro hd
    simp [resolveComponent, hl, jsOr, hd]

/-- C10 witness: a truthy non-renderable default export (a string) defeats
a perfectly valid export named exactly like the key. -/
theorem resolveComponent_strictDefault_witness :
    resolveComponent
      ⟨Except.ok ⟨[("default", JSVal.strv "oops"), ("Widget", JSVal.func 7)]⟩, none⟩
      "Widget" = Except.error (noExportMsg "Widget") := by
  have h := (resolveComponent_strictDefault
    ⟨Except.ok ⟨[("default", JSVal.strv "oops"), ("Widget", JSVal.func 7)]⟩, none⟩
    ⟨[("default", JSVal.strv "oops"), ("Widget", JSVal.func 7)]⟩ "Widget" rfl).1
    (by decide) (by decide)
  exact h

/-- C4 counterexample: on a type id with two dots the code keeps only the
segment between them (`"Foo"`), while the claimed algorithm — PascalCase
conversion of the whole remainder after the first dot — yields
`"Foo.bar"`; the code disagrees with the claim at `"x.foo.bar"`. -/
theorem componentIdToKey_remainder_counterexample :
    componentIdToKey "x.foo.bar" none = some "Foo" ∧
    specNormalizeRemainder "x.foo.bar" none = "Foo.bar" ∧
    componentIdToKey "x.foo.bar" none ≠
      some (specNormalizeRemainder "x.foo.bar" none) := by
  exact ⟨by decide, by decide, by decide⟩

/-- C4 (amended): for every type id containing a `.`, `componentIdToKey`
takes the segment between the first and the second `.` (not the whole
remainder after the first `.`), converts it from snake_case to PascalCase
and strips the supplied prefix when the result starts with it; the
round-trip examples hold; and on a type id without a `.` the function
fails (the JS code throws a TypeError there). -/
theorem componentIdToKey_amended (typeId : String) (pre : Option String) :
    ('.' ∈ typeId.data →
      componentIdToKey typeId pre =
        some (jsStripPre pre (jsPascal (secondSegment typeId)))) ∧
    ('.' ∉ typeId.data → componentIdToKey typeId pre = none) ∧
    componentIdToKey "ns.acme_text_block" (some "Acme") = some "TextBlock" ∧
    componentIdToKey "ns.text_block" none = some "TextBlock" := by
  refine ⟨?_, ?_, by decide, by decide⟩
  · intro h
    unfold componentIdToKey
    rw [splitChar_get1 '.' typeId.data h]
    rfl
  · intro h
    unfold componentIdToKey
    rw [splitChar_get1_not_mem '.' typeId.data h]

/-- C4 witness: the amended segment formula evaluated on the claim's own
example input. -/
theorem componentIdToKey_amended_witness :
    componentIdToKey "ns.acme_text_block" (some "Acme") =
      some (jsStripPre (some "Acme") (jsPascal (secondSegment "ns.acme_text_block"))) :=
  (componentIdToKey_amended "ns.acme_text_block" (some "Acme")).1 (by decide)

/-- C9 counterexample: the normalizer applied to its own output
`"TextBlock"` does not return it unchanged — the code throws on dotless
input (`none` in the model), so normalization is not a no-op on its own
output. -/
theorem componentIdToKey_idempotence_counterexample :
    componentIdToKey "TextBlock" none = none ∧
    componentIdToKey "TextBlock" none ≠ some "TextBlock" := by
  exact ⟨by decide, by decide⟩

/-- C9 (amended): the normalizer accepts only dotted (typeId-shaped)
input: on a bare already-normalized key it fails rather than acting as the
identity; idempotence holds only up to re-namespacing — wrapping a
normalized, unprefixed key (no dot, no underscore, capitalized first
character) back under a namespace and normalizing again returns the key
unchanged. -/
theorem componentIdToKey_renamespaced (key : String)
    (h1 : '.' ∉ key.data) (h2 : '_' ∉ key.data)
    (h3 : jsCapitalize key = key) :
    componentIdToKey ("ns." ++ key) none = some key ∧
    componentIdToKey key none = none := by
  constructor
  · obtain ⟨l⟩ := key
    have hkey : componentIdToKey ("ns." ++ String.mk l) none =
        componentIdToKey (String.mk ('n' :: 's' :: '.' :: l)) none := rfl
    have hsplit : splitChar '.' ('n' :: 's' :: '.' :: l) =
        ['n', 's'] :: splitChar '.' l := by
      simp [splitChar]
    rw [hkey]
    unfold componentIdToKey
    rw [show (String.mk ('n' :: 's' :: '.' :: l)).data = 'n' :: 's' :: '.' :: l from rfl,
      hsplit, splitChar_not_mem '.' l h1]
    show some (jsStripPre none (jsPascal (String.mk l))) = some (String.mk l)
    unfold jsPascal
    rw [show (String.mk l).data = l from rfl, splitChar_not_mem '_' l h2]
    rw [List.map_singleton, h3]
    rfl
  · unfold componentIdToKey
    rw [splitChar_get1_not_mem '.' key.data h1]

/-- C9 witness: re-namespacing the normalized key `"TextBlock"` and
normalizing again gives back `"TextBlock"`, while normalizing the bare key
fails. -/
theorem componentIdToKey_renamespaced_witness :
    componentIdToKey ("ns." ++ "TextBlock") none = some "TextBlock" ∧
    componentIdToKey "TextBlock" none = none :=
  componentIdToKey_renamespaced "TextBlock" (by decide) (by decide) (by decide)

/-- C5: the server sink's output roots are exactly the renders, in input
order, of the records with null parent and default ("children") slot; the
empty input yields the empty output; and a record whose `parent_uuid`
names a nonexistent id is never visited by `renderComponent` — it is
silently dropped, not reported. -/
theorem renderCanvasComponents_roots (parse : String → Except String Json)
    (cfg : RenderConfig) (opts : RenderOptions)
    (records : List DrupalCanvasComponent)
    (r : DrupalCanvasComponent) (pid : String)
    (hr : r.parent_uuid = some pid)
    (hpid : pid ∉ records.map (fun c => c.uuid)) :
    renderCanvasComponents parse cfg opts [] = [] ∧
    renderCanvasComponents parse cfg opts records =
      (records.filter (fun c => c.parent_uuid == none && effSlot c == "children")).map
        (fun c => (renderComponent parse cfg opts records records.length c).1) ∧
    r ∉ visitedAll parse cfg opts records := by
  refine ⟨rfl, ?_, ?_⟩
  · by_cases h0 :
        records.filter (fun c => c.parent_uuid == none && effSlot c == "children") = [] <;>
      simp [renderCanvasComponents, lookup_getChildrenBySlot, h0]
  · intro hmem
    unfold visitedAll at hmem
    rw [lookup_getChildrenBySlot] at hmem
    by_cases h0 :
        records.filter (fun c => c.parent_uuid == none && effSlot c == "children") = []
    · rw [if_pos h0] at hmem
      simp at hmem
    · rw [if_neg h0] at hmem
      simp only [Option.getD_some] at hmem
      rw [List.mem_flatMap] at hmem
      obtain ⟨c, hc, hrc⟩ := hmem
      have hcf := List.mem_filter.mp hc
      have hpar : c.parent_uuid = none := by
        have h2 := hcf.2
        simp only [Bool.and_eq_true, beq_iff_eq] at h2
        exact h2.1
      exact not_visited_of_dangling parse cfg opts records r pid hr hpid
        records.length c hcf.1 (Or.inl hpar) hrc

/-- C5 witness: a three-record list with one dangling record; the root
formula holds and the dangling record is unvisited. -/
theorem renderCanvasComponents_roots_witness :
    renderCanvasComponents sParse sCfg ⟨none⟩ [] = [] ∧
    renderCanvasComponents sParse sCfg ⟨none⟩ sRecords =
      (sRecords.filter (fun c => c.parent_uuid == none && effSlot c == "children")).map
        (fun c => (renderComponent sParse sCfg ⟨none⟩ sRecords sRecords.length c).1) ∧
    sDangling ∉ visitedAll sParse sCfg ⟨none⟩ sRecords :=
  renderCanvasComponents_roots sParse sCfg ⟨none⟩ sRecords sDangling "ghost" rfl
    (by decide)

theorem keys_map_value {β γ : Type} (f : β → γ) (m : List (String × β)) :
    (m.map (fun kv => (kv.1, f kv.2))).map Prod.fst = m.map Prod.fst := by
  induction m with
  | nil => rfl
  | cons kv rest ih => simp [ih]

/-- Helper: under a successful `prepare`, the config entry of the rendered
element at a populated slot `s` is the ordered list of the renders of the
filter bucket. -/
theorem slotLookup_aux (parse : String → Except String Json) (cfg : RenderConfig)
    (opts : RenderOptions) (records : List DrupalCanvasComponent) (fuel : Nat)
    (p : DrupalCanvasComponent) (comp : JSVal) (props : Json) (s : String)
    (hp : prepare parse cfg p = Except.ok (comp, props))
    (hs : records.filter (fun c => c.parent_uuid == some p.uuid && effSlot c == s) ≠ []) :
    List.lookup s (elemConfig (renderComponent parse cfg opts records (fuel + 1) p).1) =
      some (RVal.list
        ((records.filter (fun c => c.parent_uuid == some p.uuid && effSlot c == s)).map
          (fun c => (renderComponent parse cfg opts records fuel c).1))) := by
  rw [renderComponent_succ, renderStep_ok parse cfg opts records _ p comp props hp]
  show List.lookup s (objSpread
      (objSpread [("key", RVal.scalar (Json.strj p.uuid))] (jsonToObj props))
      (((getChildrenBySlot records (some p.uuid)).map
          (fun kv => (kv.1, kv.2.map (renderComponent parse cfg opts records fuel)))).map
        (fun kv => (kv.1, RVal.list (kv.2.map Prod.fst))))) = _
  have hnd : ((((getChildrenBySlot records (some p.uuid)).map
      (fun kv => (kv.1, kv.2.map (renderComponent parse cfg opts records fuel)))).map
        (fun kv => (kv.1, RVal.list (kv.2.map Prod.fst)))).map Prod.fst).Nodup := by
    rw [keys_map_value (fun v : List (RVal × List DrupalCanvasComponent) => RVal.list (v.map Prod.fst)),
      keys_map_value (fun cs : List DrupalCanvasComponent =>
        cs.map (renderComponent parse cfg opts records fuel))]
    exact nodup_keys_getChildrenBySlot records (some p.uuid)
  have hlook : List.lookup s (((getChildrenBySlot records (some p.uuid)).map
      (fun kv => (kv.1, kv.2.map (renderComponent parse cfg opts records fuel)))).map
        (fun kv => (kv.1, RVal.list (kv.2.map Prod.fst)))) =
      some (RVal.list
        ((records.filter (fun c => c.parent_uuid == some p.uuid && effSlot c == s)).map
          (fun c => (renderComponent parse cfg opts records fuel c).1))) := by
    rw [lookup_map_value (fun v : List (RVal × List DrupalCanvasComponent) => RVal.list (v.map Prod.fst)),
      lookup_map_value (fun cs : List DrupalCanvasComponent =>
        cs.map (renderComponent parse cfg opts records fuel)),
      lookup_getChildrenBySlot, if_neg hs]
    simp [List.map_map, Function.comp]
  exact lookup_objSpread_right _ _ s _ hnd hlook

/-- C1: for every successfully prepared parent record `p` and slot `s`,
the children rendered into `p`'s slot `s` are exactly the records with
parent id `p.uuid` and effective slot `s` (null or empty slot defaulting
to "children" inside `effSlot`), rendered in their input-list order; and
root order matches input order among root records.  The embedding is
deterministic — the order of each bucket is fixed before the collapsed
awaits — so the result cannot depend on loader completion order. -/
theorem renderComponent_slotChildrenOrdered (parse : String → Except String Json)
    (cfg : RenderConfig) (opts : RenderOptions)
    (records : List DrupalCanvasComponent) (fuel : Nat)
    (p : DrupalCanvasComponent) (comp : JSVal) (props : Json) (s : String)
    (hp : prepare parse cfg p = Except.ok (comp, props))
    (hs : records.filter (fun c => c.parent_uuid == some p.uuid && effSlot c == s) ≠ []) :
    List.lookup s (elemConfig (renderComponent parse cfg opts records (fuel + 1) p).1) =
      some (RVal.list
        ((records.filter (fun c => c.parent_uuid == some p.uuid && effSlot c == s)).map
          (fun c => (renderComponent parse cfg opts records fuel c).1))) ∧
    renderCanvasComponents parse cfg opts records =
      (records.filter (fun c => c.parent_uuid == none && effSlot c == "children")).map
        (fun c => (renderComponent parse cfg opts records records.length c).1) := by
  constructor
  · exact slotLookup_aux parse cfg opts records fuel p comp props s hp hs
  · by_cases h0 :
        records.filter (fun c => c.parent_uuid == none && effSlot c == "children") = [] <;>
      simp [renderCanvasComponents, lookup_getChildrenBySlot, h0]

/-- C1 witness: the single child of `sRoot` occupies its `children` slot
in input order. -/
theorem renderComponent_slotChildrenOrdered_witness :
    List.lookup "children"
        (elemConfig (renderComponent sParse sCfg ⟨none⟩ sRecords (1 + 1) sRoot).1) =
      some (RVal.list
        ((sRecords.filter
            (fun c => c.parent_uuid == some sRoot.uuid && effSlot c == "children")).map
          (fun c => (renderComponent sParse sCfg ⟨none⟩ sRecords 1 c).1))) ∧
    renderCanvasComponents sParse sCfg ⟨none⟩ sRecords =
      (sRecords.filter (fun c => c.parent_uuid == none && effSlot c == "children")).map
        (fun c => (renderComponent sParse sCfg ⟨none⟩ sRecords sRecords.length c).1) :=
  renderComponent_slotChildrenOrdered sParse sCfg ⟨none⟩ sRecords 1 sRoot sVal
    (Json.objj []) "children" rfl (by decide)

/-- C2: per-node error containment in the server sink.  Whenever preparing
a record fails — and each error kind of the claim (key not found in the
map, resolution failure, malformed JSON props, throwing `transformProps`)
produces exactly such a failure, as the last four conjuncts show — the
error is caught at the record's boundary: a configured `onError` handler
is invoked with the error and the original record and its non-void return
value becomes the node's result, `[p]` being the whole visit list (the
subtree's children are not attempted); a void return or an absent handler
yields the null placeholder; and the output remains one entry per root, so
sibling and ancestor rendering is never aborted. -/
theorem renderComponent_errorContainment (parse : String → Except String Json)
    (cfg : RenderConfig) (records : List DrupalCanvasComponent) (fuel : Nat)
    (p : DrupalCanvasComponent) (e : String)
    (he : prepare parse cfg p = Except.error e) :
    (∀ handler, renderComponent parse cfg ⟨some handler⟩ records (fuel + 1) p =
        ((handler e p).getD RVal.nullNode, [p])) ∧
    renderComponent parse cfg ⟨none⟩ records (fuel + 1) p = (RVal.nullNode, [p]) ∧
    (∀ opts, (renderCanvasComponents parse cfg opts records).length =
        (records.filter (fun c => c.parent_uuid == none && effSlot c == "children")).length) ∧
    (∀ ck, componentIdToKey p.component_id cfg.idPref = some ck →
        List.lookup ck cfg.components = none →
        prepare parse cfg p = Except.error (notFoundMsg ck)) ∧
    (∀ ck en er, componentIdToKey p.component_id cfg.idPref = some ck →
        List.lookup ck cfg.components = some en →
        resolveComponent en ck = Except.error er →
        prepare parse cfg p = Except.error er) ∧
    (∀ ck en comp er, componentIdToKey p.component_id cfg.idPref = some ck →
        List.lookup ck cfg.components = some en →
        resolveComponent en ck = Except.ok comp →
        parse p.inputs = Except.error er →
        prepare parse cfg p = Except.error er) ∧
    (∀ ck en comp t raw er, componentIdToKey p.component_id cfg.idPref = some ck →
        List.lookup ck cfg.components = some en →
        resolveComponent en ck = Except.ok comp →
        parse p.inputs = Except.ok raw →
        en.transformProps = some t → t raw = Except.error er →
        prepare parse cfg p = Except.error er) := by
  refine ⟨?_, ?_, ?_, ?_, ?_, ?_, ?_⟩
  · intro handler
    rw [renderComponent_succ,
      renderStep_error_handler parse cfg ⟨some handler⟩ records _ p e handler he rfl]
  · rw [renderComponent_succ,
      renderStep_error_noHandler parse cfg ⟨none⟩ records _ p e he rfl]
  · intro opts
    by_cases h0 :
        records.filter (fun c => c.parent_uuid == none && effSlot c == "children") = [] <;>
      simp [renderCanvasComponents, lookup_getChildrenBySlot, h0]
  · intro ck hck hlk
    simp only [prepare, hck, hlk]
  · intro ck en er hck hlk hres
    simp only [prepare, hck, hlk, hres]
  · intro ck en comp er hck hlk hres hparse
    simp only [prepare, hck, hlk, hres, hparse]
  · intro ck en comp t raw er hck hlk hres hparse htp htr
    simp only [prepare, hck, hlk, hres, hparse, htp, htr]

/-- C2 witness: a record whose key is absent from the map renders as the
handler substitute (children unattempted) with a handler, and as the null
placeholder without one. -/
theorem renderComponent_errorContainment_witness :
    renderComponent sParse sCfg ⟨some sHandler⟩ sRecords2 1 sBad =
      ((sHandler (notFoundMsg "Missing") sBad).getD RVal.nullNode, [sBad]) ∧
    renderComponent sParse sCfg ⟨none⟩ sRecords2 1 sBad = (RVal.nullNode, [sBad]) :=
  ⟨(renderComponent_errorContainment sParse sCfg sRecords2 0 sBad
      (notFoundMsg "Missing") rfl).1 sHandler,
    (renderComponent_errorContainment sParse sCfg sRecords2 0 sBad
      (notFoundMsg "Missing") rfl).2.1⟩

/-- C6 counterexample: a record whose serialized props contain a `"key"`
field renders successfully, but the node's identity key is the prop value
`"evil"`, not the record id `"1"` — the spread `\x7b key: uuid, ...props \x7d`
lets props overwrite the identity key. -/
theorem renderComponent_keyOverride_counterexample :
    identityKey ((renderComponent kParse sCfg ⟨none⟩ [kRec] 1 kRec).1) =
      some (RVal.scalar (Json.strj "evil")) ∧
    some (RVal.scalar (Json.strj "evil")) ≠ some (RVal.scalar (Json.strj "1")) := by
  refine ⟨rfl, ?_⟩
  intro h
  simp only [Option.some.injEq, RVal.scalar.injEq, Json.strj.injEq] at h
  exact absurd h (by decide)

/-- C6 (amended): for a successfully rendered record the config is built
once from the identity key, then the transformed (or raw parsed) props,
then the slot children — `transformProps` is applied exactly once, before
slot composition; provided neither the final props nor a populated slot
carries the name `"key"`, the node's identity key equals the record id;
and every config entry that is not `"key"` and not a populated slot name
reads exactly the final scalar props (a `"key"` prop or slot would
override the identity key, which the counterexample exhibits). -/
theorem renderComponent_propsAndKey (parse : String → Except String Json)
    (cfg : RenderConfig) (opts : RenderOptions)
    (records : List DrupalCanvasComponent) (fuel : Nat)
    (p : DrupalCanvasComponent) (ck : String) (en : ComponentEntry)
    (comp : JSVal) (raw props : Json)
    (hck : componentIdToKey p.component_id cfg.idPref = some ck)
    (hent : List.lookup ck cfg.components = some en)
    (hres : resolveComponent en ck = Except.ok comp)
    (hparse : parse p.inputs = Except.ok raw)
    (htr : (match en.transformProps with
            | some t => t raw
            | none => Except.ok raw) = Except.ok props) :
    (renderComponent parse cfg opts records (fuel + 1) p).1 =
      RVal.elem comp (objSpread
        (objSpread [("key", RVal.scalar (Json.strj p.uuid))] (jsonToObj props))
        (((getChildrenBySlot records (some p.uuid)).map
            (fun kv => (kv.1, kv.2.map (renderComponent parse cfg opts records fuel)))).map
          (fun kv => (kv.1, RVal.list (kv.2.map Prod.fst))))) ∧
    ("key" ∉ (jsonToObj props).map Prod.fst →
      records.filter (fun c => c.parent_uuid == some p.uuid && effSlot c == "key") = [] →
      identityKey ((renderComponent parse cfg opts records (fuel + 1) p).1) =
        some (RVal.scalar (Json.strj p.uuid))) ∧
    (∀ k, k ≠ "key" → ((jsonToObj props).map Prod.fst).Nodup →
      records.filter (fun c => c.parent_uuid == some p.uuid && effSlot c == k) = [] →
      List.lookup k (elemConfig ((renderComponent parse cfg opts records (fuel + 1) p).1)) =
        List.lookup k (jsonToObj props)) := by
  have hprep : prepare parse cfg p = Except.ok (comp, props) := by
    cases htp : en.transformProps with
    | none =>
      rw [htp] at htr
      injection htr with hrp
      simp only [prepare, hck, hent, hres, hparse, htp, hrp]
    | some t =>
      rw [htp] at htr
      have htr2 : t raw = Except.ok props := htr
      simp only [prepare, hck, hent, hres, hparse, htp, htr2]
  have hkeys : ∀ k : String,
      records.filter (fun c => c.parent_uuid == some p.uuid && effSlot c == k) = [] →
      k ∉ ((((getChildrenBySlot records (some p.uuid)).map
          (fun kv => (kv.1, kv.2.map (renderComponent parse cfg opts records fuel)))).map
            (fun kv => (kv.1, RVal.list (kv.2.map Prod.fst)))).map Prod.fst) := by
    intro k hkf
    rw [keys_map_value (fun v : List (RVal × List DrupalCanvasComponent) =>
        RVal.list (v.map Prod.fst)),
      keys_map_value (fun cs : List DrupalCanvasComponent =>
        cs.map (renderComponent parse cfg opts records fuel))]
    have hnone : List.lookup k (getChildrenBySlot records (some p.uuid)) = none := by
      rw [lookup_getChildrenBySlot, if_pos hkf]
    exact (lookup_eq_none_iff _ _).mp hnone
  refine ⟨?_, ?_, ?_⟩
  · rw [renderComponent_succ, renderStep_ok parse cfg opts records _ p comp props hprep]
  · intro hkeyP hkeyS
    rw [renderComponent_succ, renderStep_ok parse cfg opts records _ p comp props hprep]
    simp only [identityKey, elemConfig]
    rw [lookup_objSpread_left _ _ _ (hkeys "key" hkeyS),
      lookup_objSpread_left _ _ _ hkeyP, lookupCons, if_pos rfl]
  · intro k hk hnd hkf
    rw [renderComponent_succ, renderStep_ok parse cfg opts records _ p comp props hprep]
    simp only [elemConfig]
    rw [lookup_objSpread_left _ _ _ (hkeys k hkf), lookup_objSpread,
      lookup_reverse_of_nodup _ _ hnd]
    cases hlp : List.lookup k (jsonToObj props) with
    | some v => simp
    | none => simp [lookupCons, hk, strBeqFalse hk, List.lookup]

/-- C6 witness: the successfully rendered fixture root carries its record
id as identity key. -/
theorem renderComponent_propsAndKey_witness :
    identityKey ((renderComponent sParse sCfg ⟨none⟩ sRecords (1 + 1) sRoot).1) =
      some (RVal.scalar (Json.strj sRoot.uuid)) :=
  (renderComponent_propsAndKey sParse sCfg ⟨none⟩ sRecords 1 sRoot "Test" sEntry sVal
    (Json.objj []) (Json.objj []) rfl rfl rfl rfl rfl).2.1 (by simp [jsonToObj])
    (by decide)

/-- C8: when a populated slot name collides with a scalar property key of
the same record, the slot's child-list value wins in the final property
bag — the slots are spread after the scalar properties and overwrite
them. -/
theorem renderComponent_slotWins (parse : String → Except String Json)
    (cfg : RenderConfig) (opts : RenderOptions)
    (records : List DrupalCanvasComponent) (fuel : Nat)
    (p : DrupalCanvasComponent) (comp : JSVal) (props : Json) (s : String)
    (hp : prepare parse cfg p = Except.ok (comp, props))
    (hcol : List.lookup s (jsonToObj props) ≠ none)
    (hs : records.filter (fun c => c.parent_uuid == some p.uuid && effSlot c == s) ≠ []) :
    List.lookup s (elemConfig (renderComponent parse cfg opts records (fuel + 1) p).1) =
      some (RVal.list
        ((records.filter (fun c => c.parent_uuid == some p.uuid && effSlot c == s)).map
          (fun c => (renderComponent parse cfg opts records fuel c).1))) :=
  slotLookup_aux parse cfg opts records fuel p comp props s hp hs

/-- C8 witness: the fixture root has a scalar prop named `children` and a
child placed in the `children` slot; the final bag holds the child list. -/
theorem renderComponent_slotWins_witness :
    List.lookup "children"
        (elemConfig (renderComponent colParse sCfg ⟨none⟩ colRecords (1 + 1) colRoot).1) =
      some (RVal.list
        ((colRecords.filter
            (fun c => c.parent_uuid == some colRoot.uuid && effSlot c == "children")).map
          (fun c => (renderComponent colParse sCfg ⟨none⟩ colRecords 1 c).1))) := by
  refine renderComponent_slotWins colParse sCfg ⟨none⟩ colRecords 1 colRoot sVal
    (Json.objj [("children", Json.strj "x")]) "children" rfl ?_ (by decide)
  intro h
  exact Option.noConfusion h

/-- C7 counterexample: a component name present in the map whose module
has no valid export makes the browser `render` reject — contradicting the
claim that it fails only when the name is absent and otherwise mounts and
resolves to the container. -/
theorem runtimeRender_presentButInvalid_counterexample :
    (List.lookup "X" rtComponents).isSome = true ∧
    runtimeRender rtParse rtComponents 0 "X" rtProps rtSlots =
      Except.error ("Component X has no valid export") := ⟨rfl, rfl⟩

/-- C7 (amended): the browser `render` rejects when the component name is
absent from the map, and also when the loaded module yields no valid
renderable export (or the loader rejects); otherwise it parses every slot
markup entry, composes the props with the parsed slots spread after them,
mounts the element into the container and resolves to the very container
passed in. -/
theorem runtimeRender_amended (parseHtml : String → RVal)
    (components : List (String × ComponentEntry)) (container : Nat)
    (componentName : String) (props : List (String × RVal))
    (slots : List (String × String)) :
    (List.lookup componentName components = none →
      runtimeRender parseHtml components container componentName props slots =
        Except.error ("Component " ++ componentName ++ " not found")) ∧
    (∀ en e, List.lookup componentName components = some en →
      en.loader = Except.error e →
      runtimeRender parseHtml components container componentName props slots =
        Except.error e) ∧
    (∀ en m comp, List.lookup componentName components = some en →
      en.loader = Except.ok m →
      comp = jsOr (jsOr (moduleGet m "default") (moduleGet m componentName))
        (jsFind isValidComponent (moduleValues m)) →
      (truthy comp && isValidComponent comp) = true →
      runtimeRender parseHtml components container componentName props slots =
        Except.ok ⟨container,
          RVal.elem comp
            (objSpread props (slots.map (fun kv => (kv.1, parseHtml kv.2))))⟩) ∧
    (∀ en m comp, List.lookup componentName components = some en →
      en.loader = Except.ok m →
      comp = jsOr (jsOr (moduleGet m "default") (moduleGet m componentName))
        (jsFind isValidComponent (moduleValues m)) →
      (truthy comp && isValidComponent comp) = false →
      runtimeRender parseHtml components container componentName props slots =
        Except.error ("Component " ++ componentName ++ " has no valid export")) := by
  refine ⟨?_, ?_, ?_, ?_⟩
  · intro h
    simp only [runtimeRender, h]
  · intro en e hlk hld
    simp only [runtimeRender, hlk, hld]
  · intro en m comp hlk hld hcomp hval
    subst hcomp
    simp only [runtimeRender, hlk, hld]
    rw [if_pos hval]
  · intro en m comp hlk hld hcomp hval
    subst hcomp
    simp only [runtimeRender, hlk, hld]
    rw [if_neg (by simp [hval])]

/-- C7 witness: a map entry with a valid default export mounts the
composed bag and resolves to the container that was passed in, and a map
entry whose loader rejects makes the render reject with the loader
error. -/
theorem runtimeRender_amended_witness :
    runtimeRender rtParse rtGoodComponents 5 "Y" rtProps rtSlots =
      Except.ok ⟨5, RVal.elem rtGoodVal
        (objSpread rtProps (rtSlots.map (fun kv => (kv.1, rtParse kv.2))))⟩ ∧
    runtimeRender rtParse rtRejComponents 5 "Z" rtProps rtSlots =
      Except.error "NetworkError: import failed" :=
  ⟨(runtimeRender_amended rtParse rtGoodComponents 5 "Y" rtProps rtSlots).2.2.1
    ⟨Except.ok ⟨[("default", rtGoodVal)]⟩, none⟩ ⟨[("default", rtGoodVal)]⟩ rtGoodVal
    rfl rfl (by decide) (by decide),
   (runtimeRender_amended rtParse rtRejComponents 5 "Z" rtProps rtSlots).2.1
    ⟨Except.error "NetworkError: import failed", none⟩ "NetworkError: import failed"
    rfl rfl⟩

end Canvas

